import Mathlib

/-!
Verification of the lamux HTTP-to-Lambda gateway.

The development shallowly embeds the routing and invocation-translation
core of the repository:

* `Config`, `Config.Validate` and `Config.ExtractAliasAndFunctionName`
  from `config.go` (the resolver is modelled from the point where the
  effective host has been determined, i.e. after the `X-Forwarded-Host`
  override and `net.SplitHostPort` stripping; all claims are phrased over
  that effective host);
* the error-translation logic of `Lamux.Invoke` and the orchestration of
  `Lamux.handleProxy` / `Lamux.wrapHandler` from `lamux.go`.  The AWS SDK
  call, the `ridge` envelope codec and the environment are abstracted as
  inputs (`ProxyEnv`), faithfully to the points where the Go code consumes
  their results.  Go `error` values that may carry a `*HandlerError`
  through `fmt.Errorf("...: %w", err)` wrapping are modelled by `HError`:
  the HTTP code found by `errors.As` plus the outer `Error()` string.

Go strings are modelled as `List Char`; the two anchored regexps
`^[a-zA-Z0-9]+$` and `^[a-zA-Z0-9-]+$` are ASCII character classes, so a
full match is exactly "non-empty and every character in the class".
`time.Duration` (an `int64` of nanoseconds) is modelled as `Int`; the
claims only compare it with zero, so overflow is irrelevant.
-/

deriving instance DecidableEq for Except

namespace Lamux

/-- Character class of `aliasRegexp` = `^[a-zA-Z0-9]+$` (ASCII). -/
def isAliasChar (c : Char) : Bool := c.isAlpha || c.isDigit

/-- Character class of `functionNameRegexp` = `^[a-zA-Z0-9-]+$` (ASCII). -/
def isFunctionNameChar (c : Char) : Bool := isAliasChar c || c == '-'

/-- `aliasRegexp.MatchString s`: the anchored regexp matches iff `s` is
non-empty and every rune is alphanumeric ASCII. -/
def aliasMatch (s : List Char) : Bool := !s.isEmpty && s.all isAliasChar

/-- `functionNameRegexp.MatchString s`. -/
def functionNameMatch (s : List Char) : Bool := !s.isEmpty && s.all isFunctionNameChar

/-- The configuration fields consumed by the core (`config.go`).  The
trace fields only toggle observability and never make `Validate` fail,
so only `TraceEndpoint` is kept (it is read but cannot cause rejection). -/
structure Config where
  port : Int
  functionName : String
  domainSuffix : String
  upstreamTimeout : Int
  traceEndpoint : String
deriving DecidableEq

/-- `strings.HasSuffix s sfx`. -/
def hasSuffix (s sfx : List Char) : Bool := sfx.isSuffixOf s

/-- `strings.TrimSuffix s sfx`: drop `sfx` from the end when present,
otherwise return `s` unchanged. -/
def trimSuffix (s sfx : List Char) : List Char :=
  if sfx.isSuffixOf s then s.take (s.length - sfx.length) else s

/-- Split at the first occurrence of `sep`: `none` when `sep` does not
occur, otherwise the parts strictly before and after the first `sep`. -/
def splitFirst (sep : Char) : List Char → Option (List Char × List Char)
  | [] => none
  | c :: cs =>
    if c = sep then some ([], cs)
    else
      match splitFirst sep cs with
      | none => none
      | some (a, b) => some (c :: a, b)

/-- `strings.SplitN s sep 2` (for a one-character separator): the whole
string when `sep` does not occur, else the two pieces around the first
occurrence. -/
def splitN2 (s : List Char) (sep : Char) : List (List Char) :=
  match splitFirst sep s with
  | none => [s]
  | some (a, b) => [a, b]

/-- `Config.Validate` (config.go lines 36-57).  The trace-endpoint branch
only sets `enableTrace` and never fails, so it is omitted from the
`Except` result. -/
def Validate (cfg : Config) : Except String Unit :=
  if cfg.port < 0 then .error ("port must not be negative")
  else if cfg.functionName = "" then .error ("function name must be set")
  else if cfg.functionName ≠ "*" ∧ functionNameMatch cfg.functionName.data = false then
    .error ("invalid function name (^[a-zA-Z0-9-]+$ allowed)")
  else if cfg.domainSuffix = "" then .error ("domain suffix must be set")
  else if cfg.upstreamTimeout ≤ 0 then .error ("upstream timeout must be greater than 0")
  else .ok ()

/-- The distinct failure exits of `Config.ExtractAliasAndFunctionName`. -/
inductive ResolveError
  | invalidDomainSuffix
  | invalidAlias
  | invalidFunctionName
  | invalidHostFormat
deriving DecidableEq

/-- The `Error()` string of each resolver failure (the `fmt.Errorf`
format strings of config.go). -/
def ResolveError.message (cfg : Config) : ResolveError → String
  | .invalidDomainSuffix => "invalid domain suffix (must be " ++ cfg.domainSuffix ++ ")"
  | .invalidAlias => "invalid alias (^[a-zA-Z0-9]+$ allowed)"
  | .invalidFunctionName => "invalid function name (^[a-zA-Z0-9-]+$ allowed)"
  | .invalidHostFormat =>
    "invalid host name format. must be \x7balias\x7d-\x7bfunction\x7d." ++ cfg.domainSuffix

/-- `Config.ExtractAliasAndFunctionName` (config.go lines 59-93), from the
effective host (after the `X-Forwarded-Host` override and port stripping
of lines 60-66).  Returns `(alias, functionName)` on success. -/
def ExtractAliasAndFunctionName (cfg : Config) (host : List Char) :
    Except ResolveError (List Char × List Char) :=
  if hasSuffix host cfg.domainSuffix.data = false then .error .invalidDomainSuffix
  else if cfg.functionName ≠ "*" then
    -- fixed function name
    let aliasName := trimSuffix host ('.' :: cfg.domainSuffix.data)
    if aliasMatch aliasName = false then .error .invalidAlias
    else .ok (aliasName, cfg.functionName.data)
  else
    -- extract alias and function name from host
    let target := trimSuffix host ('.' :: cfg.domainSuffix.data)
    match splitN2 target '-' with
    | [aliasName, functionName] =>
      if aliasMatch aliasName = false then .error .invalidAlias
      else if functionNameMatch functionName = false then .error .invalidFunctionName
      else .ok (aliasName, functionName)
    | _ => .error .invalidHostFormat

/-- `context.Context.Err()` when non-nil: the Go context package returns
exactly `context.Canceled` or `context.DeadlineExceeded`. -/
inductive CtxErr
  | canceled
  | deadlineExceeded
deriving DecidableEq

/-- The `Error()` strings of the two context errors. -/
def CtxErr.message : CtxErr → String
  | .canceled => "context canceled"
  | .deadlineExceeded => "context deadline exceeded"

/-- The fields of `lambda.InvokeOutput` the core reads: the payload bytes
and the optional `FunctionError` marker. -/
structure LambdaOutput where
  payload : String
  functionError : Option String
deriving DecidableEq

/-- A failure reported by `lambdaClient.Invoke`, classified by whether
`errors.As` recognises it as `*types.ResourceNotFoundException`;
`msg` is its `Error()` string. -/
inductive LambdaClientError
  | resourceNotFound (msg : String)
  | other (msg : String)
deriving DecidableEq

/-- A Go error as seen by `wrapHandler`: `code = some c` when `errors.As`
finds a `*HandlerError` with code `c` in the wrap chain (surviving any
`fmt.Errorf("...: %w", err)` layers), `none` for a plain error; `msg` is
the outermost `Error()` string. -/
structure HError where
  code : Option Nat
  msg : String
deriving DecidableEq

/-- `fmt.Errorf(pre ++ "%w", e)`: prefixes the message, preserves the
`*HandlerError` found by `errors.As`. -/
def wrapErr (pre : String) (e : HError) : HError := { code := e.code, msg := pre ++ e.msg }

/-- The HTTP status `wrapHandler` picks (lamux.go lines 139-150): the
`HandlerError` code when `errors.As` finds one, else 500. -/
def statusOf (e : HError) : Nat :=
  match e.code with
  | some c => c
  | none => 500

/-- Result of one `Lamux.Invoke` call: the duration it handed to
`context.WithTimeout` (line 233) and its returned value or error. -/
structure InvokeCall where
  timeoutApplied : Int
  result : Except HError LambdaOutput

/-- `Lamux.Invoke` (lamux.go lines 218-278).  `ctxErr` is the value of
`ctx.Err()` observed after the client call fails; `clientResult` is what
`l.lambdaClient.Invoke` returned.  Span/attribute emission is
observability only and is not modelled. -/
def Invoke (cfg : Config) (ctxErr : Option CtxErr)
    (clientResult : Except LambdaClientError LambdaOutput) : InvokeCall :=
  { timeoutApplied := cfg.upstreamTimeout
    result :=
      match clientResult with
      | .error e =>
        match ctxErr with
        | some ce =>
          -- both context.Canceled and context.DeadlineExceeded map to 504
          .error (wrapErr ("upstream timeout: ") { code := some 504, msg := ce.message })
        | none =>
          match e with
          | .resourceNotFound m => .error (wrapErr ("failed to invoke: ") { code := some 404, msg := m })
          | .other m => .error (wrapErr ("failed to invoke: ") { code := some 502, msg := m })
      | .ok out =>
        match out.functionError with
        | some fe => .error { code := some 500, msg := fe }
        | none => .ok out }

/-- The per-request environment `handleProxy` consumes: the process's own
`AWS_LAMBDA_FUNCTION_NAME`, the outcome of encoding the request
(`ridge.ToRequestV2` + `json.Marshal`, collapsed to one fallible step with
its error message), the context state and client result for the invoke,
and the decoding of the response payload (`json.Unmarshal` into
`ridge.Response`, yielding status and body; a write failure to the client
socket is not modelled). -/
structure ProxyEnv where
  selfFunctionName : List Char
  encodeResult : Except String String
  ctxErr : Option CtxErr
  clientResult : Except LambdaClientError LambdaOutput
  decodeResult : String → Except String (Nat × String)

/-- What `wrapHandler` ends up sending for one request: the HTTP status,
the response body (`http.Error` writes `err.Error()`; its trailing
newline is elided), and how many times `lambdaClient.Invoke` ran. -/
structure HandleResult where
  status : Nat
  body : String
  invokeCalls : Nat
deriving DecidableEq

/-- `Lamux.handleProxy` wrapped by `Lamux.wrapHandler`
(lamux.go lines 131-154 and 177-216). -/
def handleProxy (cfg : Config) (env : ProxyEnv) (host : List Char) : HandleResult :=
  match ExtractAliasAndFunctionName cfg host with
  | .error e => { status := 400, body := e.message cfg, invokeCalls := 0 }
  | .ok (_aliasName, functionName) =>
    -- prevent recursive call
    if env.selfFunctionName = functionName then
      { status := 500, body := "recursive call detected: " ++ String.mk functionName
        invokeCalls := 0 }
    else
      match env.encodeResult with
      | .error m => { status := 500, body := m, invokeCalls := 0 }
      | .ok _payload =>
        match (Invoke cfg env.ctxErr env.clientResult).result with
        | .error e => { status := statusOf e, body := e.msg, invokeCalls := 1 }
        | .ok out =>
          match env.decodeResult out.payload with
          | .error m =>
            { status := 500, body := "failed to unmarshal response: " ++ m, invokeCalls := 1 }
          | .ok (st, bd) => { status := st, body := bd, invokeCalls := 1 }

/-! Concrete instances used by witnesses and counterexamples. -/

/-- A wildcard-mode configuration (`function-name = *`). -/
def wildcardCfg : Config :=
  { port := 8080, functionName := "*", domainSuffix := "example.com"
    upstreamTimeout := 30000000000, traceEndpoint := "" }

/-- A fixed-group configuration (`function-name = myfunc`). -/
def fixedCfg : Config :=
  { port := 8080, functionName := "myfunc", domainSuffix := "example.com"
    upstreamTimeout := 30000000000, traceEndpoint := "" }

/-- An environment whose process identity is `myfunc` (matching
`fixedCfg`'s configured function). -/
def selfEnv : ProxyEnv :=
  { selfFunctionName := "myfunc".data, encodeResult := .ok ""
    ctxErr := none, clientResult := .ok { payload := "", functionError := none }
    decodeResult := fun _ => .ok (200, "") }

/-- An environment whose backend call succeeds transport-wise but reports
a function error with a detailed backend message. -/
def leakEnv : ProxyEnv :=
  { selfFunctionName := [], encodeResult := .ok ""
    ctxErr := none
    clientResult := .ok { payload := "", functionError := some "boom-secret-detail" }
    decodeResult := fun _ => .ok (200, "") }

/-! Helper lemmas about the string primitives. -/

theorem trimSuffix_append (a b : List Char) : trimSuffix (a ++ b) b = a := by
  have h : b.isSuffixOf (a ++ b) = true := List.isSuffixOf_iff_suffix.mpr ⟨a, rfl⟩
  simp [trimSuffix, h, List.take_left]

theorem splitFirst_append_of_not_mem (sep : Char) (a b : List Char)
    (h : ∀ c ∈ a, c ≠ sep) : splitFirst sep (a ++ sep :: b) = some (a, b) := by
  induction a with
  | nil => simp [splitFirst]
  | cons c cs ih =>
    have hc : c ≠ sep := h c (by simp)
    simp [splitFirst, hc, ih (fun x hx => h x (by simp [hx]))]

theorem splitFirst_eq_none_iff (sep : Char) (s : List Char) :
    splitFirst sep s = none ↔ sep ∉ s := by
  induction s with
  | nil => simp [splitFirst]
  | cons c cs ih =>
    by_cases hc : c = sep
    · subst hc
      simp [splitFirst]
    · cases h : splitFirst sep cs with
      | none =>
        simp [splitFirst, hc, h, Ne.symm hc, ih.mp h]
      | some p =>
        have hmem : sep ∈ cs := by
          by_contra hmem
          have hnone := ih.mpr hmem
          rw [h] at hnone
          exact Option.noConfusion hnone
        obtain ⟨x, y⟩ := p
        simp [splitFirst, hc, h, hmem]

theorem bool_eq_true_of_not_eq_false {b : Bool} (h : ¬ b = false) : b = true := by
  cases b
  · exact absurd rfl h
  · rfl

theorem aliasMatch_no_hyphen {s : List Char} (h : aliasMatch s = true) :
    ∀ c ∈ s, c ≠ '-' := by
  intro c hc hEq
  simp only [aliasMatch, Bool.and_eq_true, List.all_eq_true] at h
  have hcChar := h.2 c hc
  subst hEq
  exact absurd hcChar (by decide)

/-- Shared consequence of `Validate` succeeding (used by several claims). -/
theorem Validate_ok_conditions (cfg : Config) (h : Validate cfg = .ok ()) :
    cfg.domainSuffix ≠ "" ∧
      (cfg.functionName = "*" ∨
        (cfg.functionName ≠ "" ∧ functionNameMatch cfg.functionName.data = true)) ∧
      0 < cfg.upstreamTimeout := by
  unfold Validate at h
  split at h
  · exact absurd h (by simp)
  split at h
  · exact absurd h (by simp)
  split at h
  · exact absurd h (by simp)
  split at h
  · exact absurd h (by simp)
  split at h
  · exact absurd h (by simp)
  rename_i hPort hEmpty hFn hSuf hTo
  refine ⟨hSuf, ?_, by omega⟩
  by_cases hw : cfg.functionName = "*"
  · exact Or.inl hw
  · refine Or.inr ⟨hEmpty, ?_⟩
    rcases not_and_or.mp hFn with hx | hx
    · exact absurd hw (fun hne => hx hne)
    · cases hb : functionNameMatch cfg.functionName.data
      · exact absurd hb hx
      · rfl

/-! Claim theorems. -/

/-- C1: in wildcard mode, for every host `<unit>-<group>.<domainSuffix>`
where `unit` matches `^[a-zA-Z0-9]+$` and `group` matches
`^[a-zA-Z0-9-]+$`, the resolver succeeds with alias `unit` and function
name `group`; the split happens at the first hyphen only, so hyphens
inside `group` are preserved. -/
theorem extract_wildcard_ok (cfg : Config) (unit grp : List Char)
    (hw : cfg.functionName = "*")
    (hu : aliasMatch unit = true)
    (hg : functionNameMatch grp = true) :
    ExtractAliasAndFunctionName cfg (unit ++ '-' :: grp ++ '.' :: cfg.domainSuffix.data)
      = .ok (unit, grp) := by
  have hsuf : hasSuffix (unit ++ '-' :: (grp ++ '.' :: cfg.domainSuffix.data))
      cfg.domainSuffix.data = true := by
    apply List.isSuffixOf_iff_suffix.mpr
    exact ⟨unit ++ '-' :: grp ++ ['.'], by simp⟩
  have htrim : trimSuffix (unit ++ '-' :: (grp ++ '.' :: cfg.domainSuffix.data))
      ('.' :: cfg.domainSuffix.data) = unit ++ '-' :: grp := by
    have h := trimSuffix_append (unit ++ '-' :: grp) ('.' :: cfg.domainSuffix.data)
    simpa using h
  have hsplit : splitFirst '-' (unit ++ '-' :: grp) = some (unit, grp) :=
    splitFirst_append_of_not_mem '-' unit grp (aliasMatch_no_hyphen hu)
  simp [ExtractAliasAndFunctionName, hsuf, hw, htrim, splitN2, hsplit, hu, hg]

/-- C1 witness: `foo-bar-baz.example.com` resolves to alias `foo` and
function `bar-baz`. -/
theorem extract_wildcard_ok_witness :
    ExtractAliasAndFunctionName wildcardCfg
        ("foo".data ++ '-' :: "bar-baz".data ++ '.' :: wildcardCfg.domainSuffix.data)
      = .ok ("foo".data, "bar-baz".data) :=
  extract_wildcard_ok wildcardCfg ("foo".data) ("bar-baz".data) rfl (by decide) (by decide)

/-- C2: in fixed-group mode, for every effective host ending in the
domain suffix, resolution succeeds iff the host with a trailing
`"." ++ domainSuffix` removed matches `^[a-zA-Z0-9]+$`, and then returns
that string as the alias with the configured function name unchanged;
otherwise it fails with the invalid-alias error. -/
theorem extract_fixed_mode (cfg : Config) (host : List Char)
    (hm : cfg.functionName ≠ "*")
    (hs : hasSuffix host cfg.domainSuffix.data = true) :
    ExtractAliasAndFunctionName cfg host =
      (if aliasMatch (trimSuffix host ('.' :: cfg.domainSuffix.data))
       then Except.ok (trimSuffix host ('.' :: cfg.domainSuffix.data), cfg.functionName.data)
       else Except.error ResolveError.invalidAlias) := by
  by_cases h : aliasMatch (trimSuffix host ('.' :: cfg.domainSuffix.data)) = true
  · simp [ExtractAliasAndFunctionName, hs, hm, h]
  · have h' : aliasMatch (trimSuffix host ('.' :: cfg.domainSuffix.data)) = false :=
      Bool.eq_false_iff.mpr h
    simp [ExtractAliasAndFunctionName, hs, hm, h']

/-- C2 witness: with function name `myfunc` and suffix `example.com`,
`foo.example.com` resolves to alias `foo` and function `myfunc`. -/
theorem extract_fixed_mode_witness :
    ExtractAliasAndFunctionName fixedCfg ("foo.example.com".data)
      = (if aliasMatch (trimSuffix ("foo.example.com".data) ('.' :: fixedCfg.domainSuffix.data))
         then Except.ok (trimSuffix ("foo.example.com".data) ('.' :: fixedCfg.domainSuffix.data),
           fixedCfg.functionName.data)
         else Except.error ResolveError.invalidAlias) :=
  extract_fixed_mode fixedCfg ("foo.example.com".data) (by decide) (by decide)

/-- C7: any effective host that does not end with the configured domain
suffix is rejected with the invalid-domain-suffix error, in either mode. -/
theorem extract_bad_domain (cfg : Config) (host : List Char)
    (h : hasSuffix host cfg.domainSuffix.data = false) :
    ExtractAliasAndFunctionName cfg host = .error .invalidDomainSuffix := by
  simp [ExtractAliasAndFunctionName, h]

/-- C7 witness: `foo.other.org` is rejected under suffix `example.com`. -/
theorem extract_bad_domain_witness :
    ExtractAliasAndFunctionName fixedCfg ("foo.other.org".data)
      = .error .invalidDomainSuffix :=
  extract_bad_domain fixedCfg ("foo.other.org".data) (by decide)

/-- C8 counterexample: in wildcard mode the host `-foo.example.com`
splits into an empty part before the first hyphen (`["", "foo"]`), yet
the resolver fails with the invalid-alias error, not the
invalid-host-format error the claim requires. -/
theorem extract_split_empty_part_cx :
    splitN2 (trimSuffix ("-foo.example.com".data) ('.' :: wildcardCfg.domainSuffix.data)) '-'
        = [[], "foo".data]
    ∧ ExtractAliasAndFunctionName wildcardCfg ("-foo.example.com".data)
        = .error .invalidAlias
    ∧ ResolveError.invalidAlias ≠ ResolveError.invalidHostFormat := by
  refine ⟨by decide, by decide, by decide⟩

/-- C8 amended: in wildcard mode, when the suffix-stripped target has no
hyphen the resolver fails with the invalid-host-format error; when the
first-hyphen split yields an empty part the resolver still fails, but
with the invalid-alias error (empty or invalid part before the hyphen)
or the invalid-function-name error (empty part after the hyphen). -/
theorem extract_wildcard_split_errors (cfg : Config) (host : List Char)
    (hw : cfg.functionName = "*")
    (hs : hasSuffix host cfg.domainSuffix.data = true) :
    (('-' ∉ trimSuffix host ('.' :: cfg.domainSuffix.data)) →
      ExtractAliasAndFunctionName cfg host = .error .invalidHostFormat)
    ∧ (∀ a b, splitFirst '-' (trimSuffix host ('.' :: cfg.domainSuffix.data)) = some (a, b) →
        a = [] ∨ b = [] →
        ExtractAliasAndFunctionName cfg host =
          .error (if aliasMatch a then ResolveError.invalidFunctionName
                  else ResolveError.invalidAlias)) := by
  constructor
  · intro hmem
    have hnone := (splitFirst_eq_none_iff '-'
      (trimSuffix host ('.' :: cfg.domainSuffix.data))).mpr hmem
    simp [ExtractAliasAndFunctionName, hs, hw, splitN2, hnone]
  · intro a b hsplit hempty
    rcases hempty with hempty | hempty
    · subst hempty
      simp [ExtractAliasAndFunctionName, hs, hw, splitN2, hsplit, aliasMatch]
    · subst hempty
      by_cases ha : aliasMatch a = true
      · simp [ExtractAliasAndFunctionName, hs, hw, splitN2, hsplit, ha, functionNameMatch]
      · have ha' : aliasMatch a = false := Bool.eq_false_iff.mpr ha
        simp [ExtractAliasAndFunctionName, hs, hw, splitN2, hsplit, ha']

/-- C8 amended witness: `foo.example.com` (zero hyphens) fails with the
invalid-host-format error, and `foo-.example.com` (empty part after the
hyphen) fails with the invalid-function-name error. -/
theorem extract_wildcard_split_errors_witness :
    ExtractAliasAndFunctionName wildcardCfg ("foo.example.com".data)
        = .error .invalidHostFormat
    ∧ ExtractAliasAndFunctionName wildcardCfg ("foo-.example.com".data)
        = .error .invalidFunctionName := by
  constructor
  · exact (extract_wildcard_split_errors wildcardCfg ("foo.example.com".data)
      rfl (by decide)).1 (by decide)
  · have h := (extract_wildcard_split_errors wildcardCfg ("foo-.example.com".data)
      rfl (by decide)).2 ("foo".data) [] (by decide) (Or.inr rfl)
    simpa using h

/-- C9: a configuration accepted by `Config.Validate` has a non-empty
domain suffix, a function name that is either the wildcard `*` or a
non-empty literal matching `^[a-zA-Z0-9-]+$`, and a strictly positive
upstream timeout; violating any of these is rejected (contrapositive). -/
theorem validate_accepts_only_valid (cfg : Config) (h : Validate cfg = .ok ()) :
    cfg.domainSuffix ≠ "" ∧
      (cfg.functionName = "*" ∨
        (cfg.functionName ≠ "" ∧ functionNameMatch cfg.functionName.data = true)) ∧
      0 < cfg.upstreamTimeout :=
  Validate_ok_conditions cfg h

/-- C9 witness: the fixed configuration is accepted and satisfies all
three conditions. -/
theorem validate_accepts_only_valid_witness :
    fixedCfg.domainSuffix ≠ "" ∧
      (fixedCfg.functionName = "*" ∨
        (fixedCfg.functionName ≠ "" ∧ functionNameMatch fixedCfg.functionName.data = true)) ∧
      0 < fixedCfg.upstreamTimeout :=
  validate_accepts_only_valid fixedCfg (by decide)

/-- C10: under any configuration accepted by `Config.Validate`, every
successful resolution yields an alias matching `^[a-zA-Z0-9]+$` and a
function name matching `^[a-zA-Z0-9-]+$`, in both modes. -/
theorem extract_target_invariant (cfg : Config) (host a f : List Char)
    (hv : Validate cfg = .ok ())
    (he : ExtractAliasAndFunctionName cfg host = .ok (a, f)) :
    aliasMatch a = true ∧ functionNameMatch f = true := by
  unfold ExtractAliasAndFunctionName at he
  split at he
  · exact absurd he (by simp)
  split at he
  · -- fixed-group mode
    rename_i hfix
    simp only [] at he
    split at he
    · exact absurd he (by simp)
    · rename_i hAl
      simp only [Except.ok.injEq, Prod.mk.injEq] at he
      obtain ⟨ha, hf⟩ := he
      subst ha; subst hf
      refine ⟨bool_eq_true_of_not_eq_false hAl, ?_⟩
      rcases (Validate_ok_conditions cfg hv).2.1 with hw | hm
      · exact absurd hw hfix
      · exact hm.2
  · -- wildcard mode
    dsimp only at he
    split at he
    · split at he
      · exact absurd he (by simp)
      · rename_i hAl
        split at he
        · exact absurd he (by simp)
        · rename_i hFn
          simp only [Except.ok.injEq, Prod.mk.injEq] at he
          obtain ⟨ha, hf⟩ := he
          subst ha; subst hf
          exact ⟨bool_eq_true_of_not_eq_false hAl, bool_eq_true_of_not_eq_false hFn⟩
    · exact absurd he (by simp)

/-- C10 witness: the accepted fixed configuration resolves
`foo.example.com` to a pair inside both character classes. -/
theorem extract_target_invariant_witness :
    aliasMatch ("foo".data) = true ∧ functionNameMatch ("myfunc".data) = true :=
  extract_target_invariant fixedCfg ("foo.example.com".data) ("foo".data)
    ("myfunc".data) (by decide) (by decide)

/-- C3: whenever the client call fails while the bounded per-call context
has expired — whether cancelled or past its deadline — `Invoke` returns
an error whose `wrapHandler` status is 504 (never 500 or 502), and the
deadline `Invoke` installs is always the configured upstream timeout. -/
theorem invoke_expired_maps_504 (cfg : Config) (ce : CtxErr) (e : LambdaClientError)
    (ctxE : Option CtxErr) (r : Except LambdaClientError LambdaOutput) :
    (Invoke cfg ctxE r).timeoutApplied = cfg.upstreamTimeout
    ∧ ∃ h, (Invoke cfg (some ce) (.error e)).result = .error h
        ∧ statusOf h = 504 ∧ statusOf h ≠ 500 ∧ statusOf h ≠ 502 := by
  refine ⟨rfl, ?_⟩
  cases ce <;> cases e <;> exact ⟨_, rfl, rfl, by decide, by decide⟩

/-- C4: when the client call fails and the context has not expired,
`Invoke` maps the failure to 404 exactly for a resource-not-found fault
and to 502 for any other fault. -/
theorem invoke_fault_maps_404_or_502 (cfg : Config) (e : LambdaClientError) :
    ∃ h, (Invoke cfg none (.error e)).result = .error h
      ∧ statusOf h = (match e with
          | .resourceNotFound _ => 404
          | .other _ => 502) := by
  cases e <;> exact ⟨_, rfl, rfl⟩

/-- C5: when the resolved function name equals the process's own
`AWS_LAMBDA_FUNCTION_NAME`, the handler answers with a 500 error and the
backend invoke capability is called zero times. -/
theorem proxy_self_invocation_guard (cfg : Config) (env : ProxyEnv) (host a f : List Char)
    (he : ExtractAliasAndFunctionName cfg host = .ok (a, f))
    (hself : env.selfFunctionName = f) :
    handleProxy cfg env host =
      { status := 500, body := "recursive call detected: " ++ String.mk f
        invokeCalls := 0 } := by
  simp [handleProxy, he, hself]

/-- C5 witness: with process identity `myfunc` and the fixed
configuration, `foo.example.com` resolves to function `myfunc` and the
request is answered with 500 without any invoke call. -/
theorem proxy_self_invocation_guard_witness :
    handleProxy fixedCfg selfEnv ("foo.example.com".data) =
      { status := 500, body := "recursive call detected: " ++ String.mk ("myfunc".data)
        invokeCalls := 0 } :=
  proxy_self_invocation_guard fixedCfg selfEnv ("foo.example.com".data)
    ("foo".data) ("myfunc".data) (by decide) rfl

/-- C6 counterexample: a transport-successful invocation reporting the
function error `boom-secret-detail` makes the handler answer 500 with
exactly that backend-reported message as the response body — it is
reflected verbatim, not replaced by a generic message. -/
theorem proxy_function_error_leak_cx :
    leakEnv.clientResult = .ok { payload := "", functionError := some "boom-secret-detail" }
    ∧ handleProxy wildcardCfg leakEnv ("foo-bar.example.com".data)
        = { status := 500, body := "boom-secret-detail", invokeCalls := 1 } := by
  exact ⟨rfl, by decide⟩

/-- C6 amended: on a transport-successful invocation whose result carries
a function-error marker, the handler responds with HTTP 500 and the
backend-reported error message — used for logging — is also written
verbatim as the HTTP response body (the code does not redact it). -/
theorem proxy_function_error_500 (cfg : Config) (env : ProxyEnv) (host a f : List Char)
    (out : LambdaOutput) (m : String)
    (he : ExtractAliasAndFunctionName cfg host = .ok (a, f))
    (hself : env.selfFunctionName ≠ f)
    (henc : ∃ p, env.encodeResult = .ok p)
    (hres : env.clientResult = .ok out)
    (hfe : out.functionError = some m) :
    handleProxy cfg env host = { status := 500, body := m, invokeCalls := 1 } := by
  obtain ⟨p, hp⟩ := henc
  simp [handleProxy, he, hself, hp, Invoke, hres, hfe, statusOf]

/-- C6 amended witness: `baz-qux.example.com` routed through the
function-error environment yields status 500 with the backend message as
body after one invoke call. -/
theorem proxy_function_error_500_witness :
    handleProxy wildcardCfg leakEnv ("baz-qux.example.com".data)
      = { status := 500, body := "boom-secret-detail", invokeCalls := 1 } :=
  proxy_function_error_500 wildcardCfg leakEnv ("baz-qux.example.com".data)
    ("baz".data) ("qux".data) { payload := "", functionError := some "boom-secret-detail" }
    ("boom-secret-detail") (by decide) (by decide) ⟨"", rfl⟩ rfl rfl

end Lamux
